import Mathlib

/-!
Verification of the distributed Mandelbrot renderer (Go, gRPC + raylib).

This file shallowly embeds the distributed version of `main.go`: the master
frame update (`Update`), the region assignment to slave nodes, the local
multi-threaded fragment evaluator (`CalculateRegionLocally` /
`CalculateFragmentInThread`), the per-pixel escape-time color function
(`GetPixelColorAtPosition`, including the go-colorful `Hsv` conversion it
calls), the slave gRPC handler (`CalculateRegion`), and the master-side
handling of a slave RPC result (`CalculateRegionInSlaveNode`).

Conventions of the embedding:
* Go `float64` values are modelled as exact rationals (`ℚ`); `int32` counters
  that are provably non-negative are modelled as `ℕ`.
* Go's `uint8(f)` conversion (truncation toward zero, then the 8-bit range)
  is modelled by `u8` below, with an explicit `% 256`.
* Wall-clock telemetry (`time.Now`, `ThreadsProcessTimes`, `TotalProcessTime`)
  is outside the embedding: it has no effect on any computed pixel.
* Goroutine fan-out / `sync.WaitGroup` join structure is modelled separately
  as an explicit transition system (`FrameStep` / `FrameReachable`).
-/

/-- `MAX_THREADS` of the distributed version of `main.go` (`= 8`). -/
abbrev MAX_THREADS : ℕ := 8

/-- `SCREEN_WIDTH` of the distributed version (`1280 / 2`). -/
abbrev SCREEN_WIDTH : ℕ := 1280 / 2

/-- `SCREEN_HEIGHT` of the distributed version (`720 / 2`). -/
abbrev SCREEN_HEIGHT : ℕ := 720 / 2

/-- The ceiling division `int32(math.Ceil(float64(n) / float64(d)))` used by
`Init` (for `RegionWidth` and `FragmentWidth`) and by
`CalculateRegionLocally` (for `fragmentWidth`); for natural `n` and positive
`d` the float computation is exact and equals `(n + d - 1) / d`. -/
def ceilDivN (n d : ℕ) : ℕ := (n + d - 1) / d

/-- One iteration of the Mandelbrot recurrence as written in the loop body of
`GetPixelColorAtPosition`:
`tempRealComponent = re*re - im*im + x; imaginaryComponent = 2*re*im + y`. -/
def mandelStep (cx cy re im : ℚ) : ℚ × ℚ :=
  (re * re - im * im + cx, 2 * re * im + cy)

/-- The orbit of the iteration started (as in the source) at
`realComponent = x, imaginaryComponent = y`. -/
def mandelOrbit (cx cy : ℚ) : ℕ → ℚ × ℚ
  | 0 => (cx, cy)
  | n + 1 =>
      let p := mandelOrbit cx cy n
      mandelStep cx cy p.1 p.2

/-- The escape test of the source performed during loop iteration `i`
(the test `realComponent*imaginaryComponent > 5` runs after the update, so
iteration `i` tests orbit point `i + 1`). -/
def escapesAt (cx cy : ℚ) (i : ℕ) : Prop :=
  5 < (mandelOrbit cx cy (i + 1)).1 * (mandelOrbit cx cy (i + 1)).2

instance (cx cy : ℚ) (i : ℕ) : Decidable (escapesAt cx cy i) := by
  unfold escapesAt; infer_instance

/-- The `for i := 0; i < m.MaxIterations; i++` loop of
`GetPixelColorAtPosition`, with the loop counter made a natural number.
The fuel is the number of remaining loop iterations; the result is the escape
iteration index (if any) together with the number of loop-body executions. -/
def mandelLoop (cx cy : ℚ) : ℕ → ℕ → ℚ → ℚ → Option ℕ × ℕ
  | 0, _, _, _ => (none, 0)
  | fuel + 1, i, re, im =>
      let p := mandelStep cx cy re im
      if 5 < p.1 * p.2 then (some i, 1)
      else
        let r := mandelLoop cx cy fuel (i + 1) p.1 p.2
        (r.1, r.2 + 1)

/-- Result of the escape loop for a given `MaxIterations` value: the natural
loop counter `i` satisfies `float64(i) < MaxIterations` exactly for
`i < ⌈MaxIterations⌉₊`, so the loop performs `Nat.ceil maxIter` iterations
unless it escapes earlier. -/
def escapeIter (maxIter cx cy : ℚ) : Option ℕ × ℕ :=
  mandelLoop cx cy (Nat.ceil maxIter) 0 cx cy

/-- `math.Mod(q, 2)` for the (non-negative) arguments occurring in the hue
conversion. -/
def qmod2 (q : ℚ) : ℚ := q - 2 * ⌊q / 2⌋

/-- The go-colorful `Hsv` conversion called by `GetPixelColorAtPosition`
(`colorful.Hsv(H, S, V)`): hue sextant dispatch, returning the float RGB
triple `(r+m, g+m, b+m)`. -/
def hsvColor (H S V : ℚ) : ℚ × ℚ × ℚ :=
  let Hp := H / 60
  let C := V * S
  let X := C * (1 - |qmod2 Hp - 1|)
  let m := V - C
  if 0 ≤ Hp ∧ Hp < 1 then (C + m, X + m, 0 + m)
  else if 1 ≤ Hp ∧ Hp < 2 then (X + m, C + m, 0 + m)
  else if 2 ≤ Hp ∧ Hp < 3 then (0 + m, C + m, X + m)
  else if 3 ≤ Hp ∧ Hp < 4 then (0 + m, X + m, C + m)
  else if 4 ≤ Hp ∧ Hp < 5 then (X + m, 0 + m, C + m)
  else if 5 ≤ Hp ∧ Hp < 6 then (C + m, 0 + m, X + m)
  else (0 + m, 0 + m, 0 + m)

/-- Go's `uint8(f)` applied to the non-negative float components produced by
the color pipeline: truncation toward zero, reduced to the 8-bit range. -/
def u8 (q : ℚ) : ℕ := (⌊q⌋).toNat % 256

/-- The color returned by the escape branch of `GetPixelColorAtPosition`:
`colorful.Hsv(i*360/m.MaxIterations, 0.98, 0.922)` with each component scaled
by 255 and converted with `uint8`. -/
def escapeColor (maxIter : ℚ) (i : ℕ) : ℕ × ℕ × ℕ :=
  let c := hsvColor ((i : ℚ) * 360 / maxIter) (98 / 100) (922 / 1000)
  (u8 (c.1 * 255), u8 (c.2.1 * 255), u8 (c.2.2 * 255))

/-- `GetPixelColorAtPosition` of the distributed version: runs the escape
loop and returns either the HSV-derived color or black `(0,0,0)`. -/
def GetPixelColorAtPosition (maxIter x y : ℚ) : ℕ × ℕ × ℕ :=
  match (escapeIter maxIter x y).1 with
  | some i => escapeColor maxIter i
  | none => (0, 0, 0)

/-- The per-pixel call made by `CalculateFragmentInThread`:
`GetPixelColorAtPosition(float64(x)/MagnificationFactor - PanX,
float64(y)/MagnificationFactor - PanY)`. -/
def pixelAt (mag maxIter panX panY : ℚ) (x y : ℕ) : ℕ × ℕ × ℕ :=
  GetPixelColorAtPosition maxIter ((x : ℚ) / mag - panX) ((y : ℚ) / mag - panY)

/-- The columns visited by the `x` loop of `CalculateFragmentInThread`:
`for x := x_start; (x <= x_end) && (x < x_region_end); x++`. -/
def fragmentVisitedCols (x_start x_end_frag x_region_end : ℕ) : List ℕ :=
  (List.range' x_start (x_end_frag + 1 - x_start)).filter
    (fun x => decide (x < x_region_end))

/-- The columns visited by fragment thread `i` as spawned by
`CalculateRegionLocally(x_start, _, x_end, _)` with `mt = m.MaxThreads`
threads: thread `i` receives `x_start + i*fragmentWidth` through
`x_start + i*fragmentWidth + fragmentWidth` bounded by the region end
`x_end`, where `fragmentWidth = ceil((x_end - x_start) / mt)`. -/
def localFragmentCols (mt x_start x_end i : ℕ) : List ℕ :=
  let fw := ceilDivN (x_end - x_start) mt
  fragmentVisitedCols (x_start + i * fw) (x_start + i * fw + fw) x_end

/-- The master-mode (`IsMaster`) writes of one `CalculateFragmentInThread`
call: for each visited column `x` and each `y` of
`for y := y_start; y < y_end; y++`, the assignment
`Pixels[x][y] = NewColor(red, green, blue, 255)`. -/
def fragmentPixelWrites (mag maxIter panX panY : ℚ)
    (y_start y_end x_start x_end_frag x_region_end : ℕ) :
    List ((ℕ × ℕ) × (ℕ × ℕ × ℕ)) :=
  let cols := fragmentVisitedCols x_start x_end_frag x_region_end
  let nY := y_end - y_start
  cols.flatMap (fun x =>
    (List.range nY).map (fun yi =>
      ((x, y_start + yi), pixelAt mag maxIter panX panY x (y_start + yi))))

/-- The slave-mode writes of one `CalculateFragmentInThread` call into the
shared `RGBBuffer`: the pixel counter `i` advances once per inner iteration,
so the pixel at the `ci`-th visited column and inner index `yi` is written at
byte positions `offset*3 + k*3 + {0,1,2}` with `k = ci*(y_end - y_start) + yi`.
Each element is a pair (byte index, byte value). -/
def fragmentByteWrites (mag maxIter panX panY : ℚ)
    (y_start y_end x_start x_end_frag x_region_end offset : ℕ) :
    List (ℕ × ℕ) :=
  let cols := fragmentVisitedCols x_start x_end_frag x_region_end
  let nY := y_end - y_start
  (List.range cols.length).flatMap (fun ci =>
    (List.range nY).flatMap (fun yi =>
      let x := cols.getD ci 0
      let c := pixelAt mag maxIter panX panY x (y_start + yi)
      let k := ci * nY + yi
      [(offset * 3 + k * 3, c.1),
       (offset * 3 + k * 3 + 1, c.2.1),
       (offset * 3 + k * 3 + 2, c.2.2)]))

/-- All slave-mode byte writes of `CalculateRegionLocally(x_start, y_start,
x_end, y_end)` with `mt` threads: thread `i` is spawned with fragment bounds
`x_start + i*fw .. x_start + i*fw + fw`, region end `x_end`, and buffer
offset `i*fw*fh` (`fw = ceil((x_end - x_start)/mt)`, `fh = y_end - y_start`). -/
def CalculateRegionLocallyByteWrites (mag maxIter panX panY : ℚ)
    (mt x_start y_start x_end y_end : ℕ) : List (ℕ × ℕ) :=
  let fw := ceilDivN (x_end - x_start) mt
  let fh := y_end - y_start
  (List.range mt).flatMap (fun i =>
    fragmentByteWrites mag maxIter panX panY y_start fh
      (x_start + i * fw) (x_start + i * fw + fw) x_end (i * fw * fh))

/-- All master-mode pixel writes of `CalculateRegionLocally`. -/
def CalculateRegionLocallyPixelWrites (mag maxIter panX panY : ℚ)
    (mt x_start y_start x_end y_end : ℕ) : List ((ℕ × ℕ) × (ℕ × ℕ × ℕ)) :=
  let fw := ceilDivN (x_end - x_start) mt
  let fh := y_end - y_start
  (List.range mt).flatMap (fun i =>
    fragmentPixelWrites mag maxIter panX panY y_start fh
      (x_start + i * fw) (x_start + i * fw + fw) x_end)

/-- `m.RegionWidth` as computed by `Init` in master mode:
`int32(math.Ceil(float64(m.ScreenWidth - 1) / float64(m.SlavesCount + 1)))`. -/
def mandelRegionWidth (screenWidth slaves : ℕ) : ℕ :=
  ceilDivN (screenWidth - 1) (slaves + 1)

/-- The `x_start` handed to node `i` by `Update` in distributed mode
(`regionIndex*m.RegionWidth + 1`, for both the slave calls and the final
local master region). -/
def regionXStart (W i : ℕ) : ℕ := i * W + 1

/-- The `x_end` handed to node `i` by `Update` in distributed mode
(`regionIndex*m.RegionWidth + m.RegionWidth`). -/
def regionXEnd (W i : ℕ) : ℕ := i * W + W

/-- The payload of a `CalculateRegionRequest` as sent by
`CalculateRegionInSlaveNode`. -/
structure CalculateRegionRequest where
  MagnificationFactor : ℚ
  MaxIterations : ℚ
  PanX : ℚ
  PanY : ℚ
  RegionWidth : ℕ
  RegionHeight : ℕ
  RegionIndex : ℕ

/-- The slave-side state touched by the gRPC handler `CalculateRegion`:
the render parameters it overwrites on every request and the reusable
`RGBBuffer` (`nil` until the first request allocates it). -/
structure SlaveNodeState where
  MagnificationFactor : ℚ
  MaxIterations : ℚ
  PanX : ℚ
  PanY : ℚ
  RegionWidth : ℕ
  RegionHeight : ℕ
  RGBBuffer : Option (List ℕ)

/-- A freshly started slave process (zero-valued fields, no buffer). -/
def slaveInit : SlaveNodeState :=
  ⟨0, 0, 0, 0, 0, 0, none⟩

/-- Application of a list of (index, value) byte writes to a buffer, in
program order; `List.set` out of range is a no-op. -/
def applyByteWrites (b : List ℕ) (ws : List (ℕ × ℕ)) : List ℕ :=
  ws.foldl (fun b iv => b.set iv.1 iv.2) b

/-- The slave gRPC handler `CalculateRegion`: copies the request parameters
into the node state, allocates the `RGBBuffer` only when it is still `nil`
(sized `RegionWidth*RegionHeight*3` from the current request), runs
`CalculateRegionLocally(regionIndex*RegionWidth, 0,
regionIndex*RegionWidth + RegionWidth, RegionHeight)` in slave mode
(writing into the buffer), and responds with the buffer. -/
def CalculateRegion (s : SlaveNodeState) (req : CalculateRegionRequest) :
    SlaveNodeState × List ℕ :=
  let s1 : SlaveNodeState :=
    { s with
      MagnificationFactor := req.MagnificationFactor
      MaxIterations := req.MaxIterations
      PanX := req.PanX
      PanY := req.PanY
      RegionWidth := req.RegionWidth
      RegionHeight := req.RegionHeight }
  let buf0 :=
    match s1.RGBBuffer with
    | none => List.replicate (s1.RegionWidth * s1.RegionHeight * 3) 0
    | some b => b
  let ws := CalculateRegionLocallyByteWrites req.MagnificationFactor
    req.MaxIterations req.PanX req.PanY MAX_THREADS
    (req.RegionIndex * s1.RegionWidth) 0
    (req.RegionIndex * s1.RegionWidth + s1.RegionWidth) s1.RegionHeight
  let buf1 := applyByteWrites buf0 ws
  ({ s1 with RGBBuffer := some buf1 }, buf1)

/-- The outcome of the gRPC call `SlavesClients[i].CalculateRegion(ctx, ...)`
as seen by the master: either a response carrying `RGBPixels`, or an error
(timeout after the 1-second context deadline, transport failure, ...). -/
inductive RPCOutcome where
  | ok (rgb : List ℕ)
  | err (code : ℕ)

/-- What the master goroutine `CalculateRegionInSlaveNode` does after the
call returns: on any error it executes `log.Fatalf(...)`, which terminates
the whole coordinator process; otherwise it copies the response buffer into
the pixel matrix. -/
inductive MasterStep where
  | fatalExit
  | composite (writes : List ((ℕ × ℕ) × (ℕ × ℕ × ℕ)))

/-- The master-side copy loop of `CalculateRegionInSlaveNode`: for
`x := x_start; x <= x_end && x < ScreenWidth; x++` and
`y := 0; y < y_end; y++` it writes
`Pixels[x][y] = NewColor(rgbBuffer[i*3], rgbBuffer[i*3+1], rgbBuffer[i*3+2])`
with the flat counter `i` advancing once per inner iteration. -/
def masterCopyWrites (screenWidth W H ri : ℕ) (buf : List ℕ) :
    List ((ℕ × ℕ) × (ℕ × ℕ × ℕ)) :=
  let cols := (List.range' (ri * W + 1) W).filter
    (fun x => decide (x < screenWidth))
  (List.range cols.length).flatMap (fun ci =>
    (List.range H).flatMap (fun yi =>
      let i := ci * H + yi
      [((cols.getD ci 0, yi),
        (buf.getD (i * 3) 0, buf.getD (i * 3 + 1) 0, buf.getD (i * 3 + 2) 0))]))

/-- `CalculateRegionInSlaveNode`, after the RPC for region `ri` returns:
`if err != nil { log.Fatalf(...) }` — an error is fatal for the coordinator
process; on success the response is composited. -/
def CalculateRegionInSlaveNode (screenWidth W H ri : ℕ)
    (r : RPCOutcome) : MasterStep :=
  match r with
  | .err _ => .fatalExit
  | .ok rgb => .composite (masterCopyWrites screenWidth W H ri rgb)

/-- The master (coordinator) state mutated by `Update`; wall-clock telemetry
fields (`ThreadsProcessTimes`, `TotalProcessTime`) are not modelled. -/
structure MandelbrotMaster where
  ScreenWidth : ℕ
  ScreenHeight : ℕ
  Pixels : ℕ → ℕ → ℕ × ℕ × ℕ
  MagnificationFactor : ℚ
  MaxIterations : ℚ
  PanX : ℚ
  PanY : ℚ
  NeedUpdate : Bool
  MaxThreads : ℕ
  SlavesCount : ℕ
  RegionWidth : ℕ
  RegionHeight : ℕ
  FragmentWidth : ℕ
  FragmentHeight : ℕ

/-- Application of pixel writes to the pixel matrix, in program order
(overlapping writes carry equal colors, so any interleaving of the fragment
goroutines yields this result). The model's grid is a total function on
`ℕ × ℕ`, whereas Go's `Pixels` slice has exactly `ScreenWidth` columns and
an out-of-range write panics; such writes are reachable — the master-local
fragment loop is bounded only by `x < x_region_end`, not by `ScreenWidth`,
and `masterLocal_overshoot_visited` below proves it visits column
`1280 = ScreenWidth` with 2 slaves — so this model records those writes
instead of failing, and no theorem in this file relies on the grid's value
at any column `≥ ScreenWidth`. -/
def applyPixelWrites (px : ℕ → ℕ → ℕ × ℕ × ℕ)
    (ws : List ((ℕ × ℕ) × (ℕ × ℕ × ℕ))) : ℕ → ℕ → ℕ × ℕ × ℕ :=
  ws.foldl (fun f w => fun x y => if x = w.1.1 ∧ y = w.1.2 then w.2 else f x y) px

/-- The writes of the single-computer branch of `Update` (`SlavesCount == 0`):
thread `i` gets `x_start = i*FragmentWidth`,
`x_end = i*FragmentWidth + FragmentWidth + i`, `y_end = FragmentHeight`, and
region end `m.FragmentWidth`. -/
def singleComputerWrites (m : MandelbrotMaster) :
    List ((ℕ × ℕ) × (ℕ × ℕ × ℕ)) :=
  (List.range m.MaxThreads).flatMap (fun i =>
    fragmentPixelWrites m.MagnificationFactor m.MaxIterations m.PanX m.PanY
      0 m.FragmentHeight (i * m.FragmentWidth)
      (i * m.FragmentWidth + m.FragmentWidth + i) m.FragmentWidth)

/-- The response a slave node produces for the master's request for region
`ri`, assuming a fresh slave process and a successful call: the slave runs
the same pure pixel function over its assigned region. -/
def idealSlaveResponse (m : MandelbrotMaster) (ri : ℕ) : List ℕ :=
  (CalculateRegion slaveInit
    ⟨m.MagnificationFactor, m.MaxIterations, m.PanX, m.PanY,
     m.RegionWidth, m.RegionHeight, ri⟩).2

/-- The writes of the distributed branch of `Update`: each slave region
`ri < SlavesCount` is composited from the slave response, and the master
additionally computes region `SlavesCount` locally
(`CalculateRegionLocally(regionIndex*RegionWidth + 1, 0,
regionIndex*RegionWidth + RegionWidth, RegionHeight)`). RPC failures are
modelled separately by `CalculateRegionInSlaveNode`. -/
def distributedWrites (m : MandelbrotMaster) :
    List ((ℕ × ℕ) × (ℕ × ℕ × ℕ)) :=
  ((List.range m.SlavesCount).flatMap (fun ri =>
    masterCopyWrites m.ScreenWidth m.RegionWidth m.RegionHeight ri
      (idealSlaveResponse m ri)))
  ++ CalculateRegionLocallyPixelWrites m.MagnificationFactor m.MaxIterations
      m.PanX m.PanY m.MaxThreads
      (m.SlavesCount * m.RegionWidth + 1) 0
      (m.SlavesCount * m.RegionWidth + m.RegionWidth) m.RegionHeight

/-- The per-frame `Update` of the distributed version: returns immediately
when `NeedUpdate` is unset; otherwise recomputes the pixel matrix along the
single-computer or distributed path. -/
def Update (m : MandelbrotMaster) : MandelbrotMaster :=
  if m.NeedUpdate = false then m
  else if m.SlavesCount = 0 then
    { m with Pixels := applyPixelWrites m.Pixels (singleComputerWrites m) }
  else
    { m with Pixels := applyPixelWrites m.Pixels (distributedWrites m) }

/-- Join state of one distributed frame: which of the `nT` local fragment
goroutines have called `ThreadWaitGroup.Done`, which of the `nS` slave
goroutines have called `DistributedWaitGroup.Done`, and whether `Update` has
returned. -/
structure FrameJoinState where
  localDone : Finset ℕ
  remoteDone : Finset ℕ
  returned : Bool

/-- Interleaved execution steps of one distributed frame with `nT` local
fragment tasks and `nS` remote tasks, as constrained by the two
`sync.WaitGroup`s of `Update`: a task can finish at any time, but `Update`
can only return after `ThreadWaitGroup.Wait()` (inside
`CalculateRegionLocally`) and `DistributedWaitGroup.Wait()` have both
observed every counted `Done`. -/
inductive FrameStep (nT nS : ℕ) : FrameJoinState → FrameJoinState → Prop
  | finishLocal (i : ℕ) (hi : i < nT) (s : FrameJoinState) :
      FrameStep nT nS s ⟨insert i s.localDone, s.remoteDone, s.returned⟩
  | finishRemote (j : ℕ) (hj : j < nS) (s : FrameJoinState) :
      FrameStep nT nS s ⟨s.localDone, insert j s.remoteDone, s.returned⟩
  | ret (s : FrameJoinState)
      (hT : Finset.range nT ⊆ s.localDone)
      (hS : Finset.range nS ⊆ s.remoteDone) :
      FrameStep nT nS s ⟨s.localDone, s.remoteDone, true⟩

/-- States reachable during one distributed frame, starting from the state
where `Update` has just spawned its goroutines. -/
inductive FrameReachable (nT nS : ℕ) : FrameJoinState → Prop
  | init : FrameReachable nT nS ⟨∅, ∅, false⟩
  | step {s t : FrameJoinState} :
      FrameReachable nT nS s → FrameStep nT nS s t → FrameReachable nT nS t

/-- Modelled from the spec: `AdaptiveBalancer` does not exist in the source
repository (the source fixes every node's region width once in `Init`); the
spec prescribes a latency scan picking the first-seen index of the minimum.
`firstMinIdx l` is the first index of the minimum element of `l`. -/
def firstMinIdx : List ℚ → ℕ
  | [] => 0
  | [_] => 0
  | x :: y :: xs =>
      let j := firstMinIdx (y :: xs)
      if (y :: xs).getD j 0 < x then j + 1 else 0

/-- Modelled from the spec: first-seen index of the maximum latency. -/
def firstMaxIdx : List ℚ → ℕ
  | [] => 0
  | [_] => 0
  | x :: y :: xs =>
      let j := firstMaxIdx (y :: xs)
      if x < (y :: xs).getD j 0 then j + 1 else 0

/-- Modelled from the spec: `AdaptiveBalancer.Rebalance(shares, latencies)`.
Scan `latencies` for the first-seen minimum (`fastest`) and maximum
(`slowest`); if `fastest != slowest`, `shares[fastest] < 100` and
`shares[slowest] > 0`, move one percentage point from `slowest` to
`fastest`; otherwise leave `shares` unchanged. -/
def Rebalance (shares : List ℤ) (latencies : List ℚ) : List ℤ :=
  let fastest := firstMinIdx latencies
  let slowest := firstMaxIdx latencies
  if fastest ≠ slowest ∧ shares.getD fastest 0 < 100 ∧ 0 < shares.getD slowest 0
  then (shares.set fastest (shares.getD fastest 0 + 1)).set slowest
        (shares.getD slowest 0 - 1)
  else shares

/-- `CalculateFragmentInThread` in master mode, as a function of its
parameters `(thread_index, x_start, y_start, x_end, y_end, offset,
x_region_end)`: the result is the list of pixel writes it performs together
with the index of the `ThreadsProcessTimes` telemetry slot it reports into
(the only use the fragment body makes of `thread_index`; `offset` is used
only in slave mode). -/
def CalculateFragmentInThread (thread_index : ℕ) (mag maxIter panX panY : ℚ)
    (x_start y_start x_end_frag y_end _offset x_region_end : ℕ) :
    List ((ℕ × ℕ) × (ℕ × ℕ × ℕ)) × ℕ :=
  (fragmentPixelWrites mag maxIter panX panY y_start y_end
    x_start x_end_frag x_region_end, thread_index)

/-! ### Helper lemmas -/

theorem applyByteWrites_length (ws : List (ℕ × ℕ)) (b : List ℕ) :
    (applyByteWrites b ws).length = b.length := by
  induction ws generalizing b with
  | nil => rfl
  | cons w ws ih =>
      simp only [applyByteWrites, List.foldl_cons] at *
      rw [ih, List.length_set]

theorem filter_lt_range' (B s n : ℕ) :
    (List.range' s n).filter (fun x => decide (x < B)) =
      List.range' s (min n (B - s)) := by
  induction n generalizing s with
  | zero => simp
  | succ n ih =>
      rw [List.range'_succ, List.filter_cons]
      by_cases hs : s < B
      · have h1 : min (n + 1) (B - s) = min n (B - (s + 1)) + 1 := by omega
        rw [h1, List.range'_succ]
        simp [hs, ih]
      · have h1 : min (n + 1) (B - s) = 0 := by omega
        have h2 : min n (B - (s + 1)) = 0 := by omega
        rw [h1]
        simp only [hs, decide_eq_true_eq, if_neg]
        rw [ih, h2]
        simp [hs]

theorem fragmentVisitedCols_eq (x_start x_end_frag x_region_end : ℕ) :
    fragmentVisitedCols x_start x_end_frag x_region_end =
      List.range' x_start (min (x_end_frag + 1 - x_start)
        (x_region_end - x_start)) := by
  rw [fragmentVisitedCols, filter_lt_range']

theorem mem_fragmentVisitedCols {x_start x_end_frag x_region_end c : ℕ} :
    c ∈ fragmentVisitedCols x_start x_end_frag x_region_end ↔
      x_start ≤ c ∧ c ≤ x_end_frag ∧ c < x_region_end := by
  rw [fragmentVisitedCols, List.mem_filter, List.mem_range'_1]
  simp only [decide_eq_true_eq]
  omega

theorem le_mul_ceilDivN (n d : ℕ) (hd : 0 < d) : n ≤ d * ceilDivN n d := by
  unfold ceilDivN
  have h1 := Nat.div_add_mod (n + d - 1) d
  have h2 : (n + d - 1) % d < d := Nat.mod_lt _ hd
  set q := (n + d - 1) / d with hq
  set m := d * q with hm
  omega

theorem ceilDivN_eq_zero_iff {n d : ℕ} (hd : 0 < d) :
    ceilDivN n d = 0 ↔ n = 0 := by
  unfold ceilDivN
  rw [Nat.div_eq_zero_iff (by omega)]
  omega

theorem one_le_ceilDivN {n d : ℕ} (hd : 0 < d) (hn : 0 < n) :
    1 ≤ ceilDivN n d := by
  rcases Nat.eq_zero_or_pos (ceilDivN n d) with h | h
  · rw [ceilDivN_eq_zero_iff hd] at h; omega
  · exact h

/-- The last region is not clamped to the screen by the master-local path:
at the code's screen width 1280 with 2 slaves, `RegionWidth = 427`, the
master's own region is `[855, 1281]`, and fragment thread 7 of
`CalculateRegionLocally(855, 0, 1281, 720)` — whose `x` loop is bounded
only by `x < x_region_end = 1281`, with no `ScreenWidth` bound — really
visits column `1280 = ScreenWidth`. In Go the corresponding write
`Pixels[1280][y]` is out of range (the slice has columns `0..1279`): a
runtime panic, not a clipped write. -/
theorem masterLocal_overshoot_visited :
    mandelRegionWidth 1280 2 = 427 ∧
    regionXStart (mandelRegionWidth 1280 2) 2 = 855 ∧
    regionXEnd (mandelRegionWidth 1280 2) 2 = 1281 ∧
    1280 ∈ localFragmentCols 8 855 1281 7 := by decide

theorem mandelLoop_steps_le (cx cy : ℚ) :
    ∀ (fuel i : ℕ) (re im : ℚ), (mandelLoop cx cy fuel i re im).2 ≤ fuel := by
  intro fuel
  induction fuel with
  | zero => intro i re im; simp [mandelLoop]
  | succ fuel ih =>
      intro i re im
      rw [mandelLoop]
      dsimp only
      split
      · simp
      · simpa using ih (i + 1) _ _

theorem mandelOrbit_succ (cx cy : ℚ) (i : ℕ) :
    mandelStep cx cy (mandelOrbit cx cy i).1 (mandelOrbit cx cy i).2 =
      mandelOrbit cx cy (i + 1) := rfl

theorem mandelLoop_none_iff (cx cy : ℚ) :
    ∀ (fuel i : ℕ),
    (mandelLoop cx cy fuel i (mandelOrbit cx cy i).1 (mandelOrbit cx cy i).2).1
        = none
      ↔ ∀ k, k < fuel → ¬ escapesAt cx cy (i + k) := by
  intro fuel
  induction fuel with
  | zero => intro i; simp [mandelLoop]
  | succ fuel ih =>
      intro i
      rw [mandelLoop]
      dsimp only
      rw [mandelOrbit_succ]
      by_cases hesc :
          5 < (mandelOrbit cx cy (i + 1)).1 * (mandelOrbit cx cy (i + 1)).2
      · rw [if_pos hesc]
        refine iff_of_false (by simp) ?_
        intro h
        exact (h 0 (by omega)) (by simpa [escapesAt] using hesc)
      · rw [if_neg hesc]
        have h1 := ih (i + 1)
        dsimp only
        rw [h1]
        constructor
        · intro h k hk
          rcases Nat.eq_zero_or_pos k with rfl | hkpos
          · simpa [escapesAt] using hesc
          · have := h (k - 1) (by omega)
            have he : i + 1 + (k - 1) = i + k := by omega
            rwa [he] at this
        · intro h k hk
          have := h (k + 1) (by omega)
          have he : i + (k + 1) = i + 1 + k := by omega
          rwa [he] at this

theorem mandelLoop_some_bound {cx cy : ℚ} :
    ∀ {fuel i j : ℕ} {re im : ℚ},
    (mandelLoop cx cy fuel i re im).1 = some j → i ≤ j ∧ j < i + fuel := by
  intro fuel
  induction fuel with
  | zero => intro i j re im h; simp [mandelLoop] at h
  | succ fuel ih =>
      intro i j re im h
      rw [mandelLoop] at h
      dsimp only at h
      split at h
      · simp only [Option.some.injEq] at h
        omega
      · simp only at h
        have := ih h
        omega

theorem mandelLoop_some_escapes (cx cy : ℚ) :
    ∀ (fuel i j : ℕ),
    (mandelLoop cx cy fuel i (mandelOrbit cx cy i).1 (mandelOrbit cx cy i).2).1
        = some j →
      escapesAt cx cy j := by
  intro fuel
  induction fuel with
  | zero => intro i j h; simp [mandelLoop] at h
  | succ fuel ih =>
      intro i j h
      rw [mandelLoop] at h
      dsimp only at h
      rw [mandelOrbit_succ] at h
      split at h
      · simp only [Option.some.injEq] at h
        subst h
        simpa [escapesAt] using by assumption
      · exact ih (i + 1) j (by simpa using h)

theorem u8_eq_235 : u8 ((922 : ℚ) / 1000 * 255) = 235 := by
  rw [u8]
  rw [show ((922 : ℚ) / 1000 * 255) = 23511 / 100 by norm_num]
  rw [show ⌊(23511 / 100 : ℚ)⌋ = 235 by rw [Int.floor_eq_iff]; norm_num]
  rfl

theorem hsvColor_has_V (H S V : ℚ) (h0 : 0 ≤ H / 60) (h6 : H / 60 < 6) :
    (hsvColor H S V).1 = V ∨ (hsvColor H S V).2.1 = V ∨
      (hsvColor H S V).2.2 = V := by
  rw [hsvColor]
  rcases lt_or_le (H / 60) 1 with h1 | h1
  · rw [if_pos ⟨h0, h1⟩]; left; ring
  rcases lt_or_le (H / 60) 2 with h2 | h2
  · rw [if_neg (fun hc => absurd hc.2 (not_lt.2 h1)), if_pos ⟨h1, h2⟩]
    right; left; ring
  rcases lt_or_le (H / 60) 3 with h3 | h3
  · rw [if_neg (fun hc => absurd hc.2 (not_lt.2 h1)),
      if_neg (fun hc => absurd hc.2 (not_lt.2 h2)), if_pos ⟨h2, h3⟩]
    right; left; ring
  rcases lt_or_le (H / 60) 4 with h4 | h4
  · rw [if_neg (fun hc => absurd hc.2 (not_lt.2 h1)),
      if_neg (fun hc => absurd hc.2 (not_lt.2 h2)),
      if_neg (fun hc => absurd hc.2 (not_lt.2 h3)), if_pos ⟨h3, h4⟩]
    right; right; ring
  rcases lt_or_le (H / 60) 5 with h5 | h5
  · rw [if_neg (fun hc => absurd hc.2 (not_lt.2 h1)),
      if_neg (fun hc => absurd hc.2 (not_lt.2 h2)),
      if_neg (fun hc => absurd hc.2 (not_lt.2 h3)),
      if_neg (fun hc => absurd hc.2 (not_lt.2 h4)), if_pos ⟨h4, h5⟩]
    right; right; ring
  · rw [if_neg (fun hc => absurd hc.2 (not_lt.2 h1)),
      if_neg (fun hc => absurd hc.2 (not_lt.2 h2)),
      if_neg (fun hc => absurd hc.2 (not_lt.2 h3)),
      if_neg (fun hc => absurd hc.2 (not_lt.2 h4)),
      if_neg (fun hc => absurd hc.2 (not_lt.2 h5)), if_pos ⟨h5, h6⟩]
    left; ring

theorem escapeColor_ne_black {maxIter : ℚ} {j : ℕ} (h : (j : ℚ) < maxIter) :
    escapeColor maxIter j ≠ (0, 0, 0) := by
  have hm : 0 < maxIter := lt_of_le_of_lt (by positivity) h
  have h0 : 0 ≤ (j : ℚ) * 360 / maxIter / 60 := by positivity
  have h6 : (j : ℚ) * 360 / maxIter / 60 < 6 := by
    rw [div_div, div_lt_iff₀ (by positivity)]
    nlinarith [h]
  rw [escapeColor]
  rcases hsvColor_has_V ((j : ℚ) * 360 / maxIter) (98 / 100) (922 / 1000) h0 h6
    with hV | hV | hV
  · rw [hV, u8_eq_235]; simp [Prod.ext_iff]
  · rw [hV, u8_eq_235]; simp [Prod.ext_iff]
  · rw [hV, u8_eq_235]; simp [Prod.ext_iff]

/-! ### Claim theorems -/

/-- C10: for every finite non-negative `MaxIterations` value and every input
coordinate, the per-pixel color computation executes at most
`ceil(MaxIterations)` iterations of the escape loop, and it returns black
`(0,0,0)` exactly when no iteration `i < MaxIterations` satisfies the escape
test `realComponent*imaginaryComponent > 5`. -/
theorem C10_pixel_termination_black (maxIter x y : ℚ) (hmi : 0 ≤ maxIter) :
    (escapeIter maxIter x y).2 ≤ Nat.ceil maxIter ∧
    (GetPixelColorAtPosition maxIter x y = (0, 0, 0) ↔
      ¬ ∃ i : ℕ, (i : ℚ) < maxIter ∧ escapesAt x y i) := by
  refine ⟨mandelLoop_steps_le x y (Nat.ceil maxIter) 0 x y, ?_⟩
  have key : (escapeIter maxIter x y).1 = none ↔
      ∀ k, k < Nat.ceil maxIter → ¬ escapesAt x y (0 + k) :=
    mandelLoop_none_iff x y (Nat.ceil maxIter) 0
  rw [GetPixelColorAtPosition]
  cases hE : (escapeIter maxIter x y).1 with
  | none =>
      refine iff_of_true rfl ?_
      rintro ⟨i, hi, hesc⟩
      have hik : i < Nat.ceil maxIter := Nat.lt_ceil.mpr hi
      exact (key.mp hE i hik) (by simpa using hesc)
  | some j =>
      have hb := @mandelLoop_some_bound x y (Nat.ceil maxIter) 0 j x y hE
      have hj : (j : ℚ) < maxIter := Nat.lt_ceil.mp (by omega)
      refine iff_of_false (escapeColor_ne_black hj) ?_
      intro hno
      exact hno ⟨j, hj, mandelLoop_some_escapes x y (Nat.ceil maxIter) 0 j hE⟩

/-- Witness for C10 at `MaxIterations = 1` and pixel coordinate `(0, 0)`
(which never escapes, so the color is black). -/
theorem C10_pixel_termination_black_witness :
    (0 : ℚ) ≤ 1 ∧
    ((escapeIter 1 0 0).2 ≤ Nat.ceil (1 : ℚ) ∧
     (GetPixelColorAtPosition 1 0 0 = (0, 0, 0) ↔
       ¬ ∃ i : ℕ, (i : ℚ) < 1 ∧ escapesAt 0 0 i)) :=
  ⟨by norm_num, C10_pixel_termination_black 1 0 0 (by norm_num)⟩

/-- C7: calling `Update` when the scene is not marked dirty
(`NeedUpdate == false`) is a no-op: it returns immediately and leaves the
whole coordinator state unchanged. -/
theorem C7_update_noop (m : MandelbrotMaster) (h : m.NeedUpdate = false) :
    Update m = m := by
  rw [Update, if_pos h]

/-- Witness for C7 at a concrete coordinator state with `NeedUpdate` unset. -/
theorem C7_update_noop_witness :
    (⟨1280, 720, fun _ _ => (0, 0, 0), 400, 80, 0, 0, false, 8, 1, 640, 720,
       92, 359⟩ : MandelbrotMaster).NeedUpdate = false ∧
    Update ⟨1280, 720, fun _ _ => (0, 0, 0), 400, 80, 0, 0, false, 8, 1, 640,
       720, 92, 359⟩ =
      ⟨1280, 720, fun _ _ => (0, 0, 0), 400, 80, 0, 0, false, 8, 1, 640, 720,
       92, 359⟩ :=
  ⟨rfl, C7_update_noop _ rfl⟩

/-- C2 (the claim is what the spec requires; the code violates it): when the
gRPC call for a slave region fails — for instance times out after the
1-second deadline — `CalculateRegionInSlaveNode` runs `log.Fatalf`, which
terminates the whole coordinator process instead of completing the frame
without that node; evaluated here at the code's startup geometry
(screen width 1280, one slave, hence `RegionWidth = 640`). -/
theorem C2_slave_error_is_fatal :
    CalculateRegionInSlaveNode 1280 (mandelRegionWidth 1280 1) 720 0
      (.err 0) = .fatalExit := rfl

/-- C1 counterexample: with the code's screen width 1280 and one slave,
`RegionWidth = ceil(1279/2) = 640`, the first region assigned by `Update`
starts at column 1 (not 0, as the claim states), and the last (master)
region ends strictly beyond `screenWidth - 1 = 1279`, at column 1280. -/
theorem C1_counterexample :
    mandelRegionWidth 1280 1 = 640 ∧
    regionXStart (mandelRegionWidth 1280 1) 0 ≠ 0 ∧
    regionXEnd (mandelRegionWidth 1280 1) 1 ≠ 1280 - 1 ∧
    1280 - 1 < regionXEnd (mandelRegionWidth 1280 1) 1 := by decide

/-- C1 amended: in distributed mode the node regions
`[i*W + 1, i*W + W]` (`W = ceil((screenWidth-1)/(slaves+1))`, node
`i ≤ slaves`, the master taking the last index) satisfy: the first region
starts at column 1 — column 0 is never assigned; consecutive regions are
adjacent (`xEnd_i + 1 = xStart_{i+1}`); the last region ends at or beyond
column `screenWidth - 1`, and can end strictly beyond it (the counterexample
and `masterLocal_overshoot_visited` show the overshoot columns are really
assigned and, on the master-local path, really visited — an out-of-range
write in Go); regions are pairwise disjoint; and every column in
`[1, screenWidth - 1]` is covered by some region. -/
theorem C1_regions_tile_amended (screenWidth slaves : ℕ)
    (h : 2 ≤ screenWidth) :
    regionXStart (mandelRegionWidth screenWidth slaves) 0 = 1 ∧
    (∀ i, regionXEnd (mandelRegionWidth screenWidth slaves) i + 1 =
      regionXStart (mandelRegionWidth screenWidth slaves) (i + 1)) ∧
    screenWidth - 1 ≤ regionXEnd (mandelRegionWidth screenWidth slaves) slaves ∧
    (∀ i j, i < j → regionXEnd (mandelRegionWidth screenWidth slaves) i <
      regionXStart (mandelRegionWidth screenWidth slaves) j) ∧
    (∀ c, 1 ≤ c → c ≤ screenWidth - 1 →
      ∃ i, i ≤ slaves ∧
        regionXStart (mandelRegionWidth screenWidth slaves) i ≤ c ∧
        c ≤ regionXEnd (mandelRegionWidth screenWidth slaves) i) := by
  set W := mandelRegionWidth screenWidth slaves with hWdef
  have hW0 : 0 < W := one_le_ceilDivN (by omega) (by omega)
  have hcover : screenWidth - 1 ≤ (slaves + 1) * W :=
    le_mul_ceilDivN (screenWidth - 1) (slaves + 1) (by omega)
  refine ⟨by simp [regionXStart], ?_, ?_, ?_, ?_⟩
  · intro i
    simp only [regionXEnd, regionXStart, Nat.succ_mul]
  · simp only [regionXEnd]
    rw [Nat.succ_mul] at hcover
    linarith
  · intro i j hij
    simp only [regionXEnd, regionXStart]
    have h1 : (i + 1) * W ≤ j * W := Nat.mul_le_mul_right W (by omega)
    rw [Nat.succ_mul] at h1
    linarith
  · intro c hc1 hc2
    refine ⟨(c - 1) / W, ?_, ?_, ?_⟩
    · have hlt : c - 1 < (slaves + 1) * W := by
        rw [Nat.succ_mul] at hcover ⊢
        omega
      have := (Nat.div_lt_iff_lt_mul hW0).mpr hlt
      omega
    · simp only [regionXStart]
      have h4 := Nat.div_add_mod (c - 1) W
      rw [Nat.mul_comm]
      omega
    · simp only [regionXEnd]
      have h4 := Nat.div_add_mod (c - 1) W
      have h5 : (c - 1) % W < W := Nat.mod_lt _ hW0
      rw [Nat.mul_comm]
      omega

/-- Witness for the amended C1 at the code's startup geometry
(screen width 1280, one slave). -/
theorem C1_regions_tile_amended_witness :
    2 ≤ 1280 ∧
    (regionXStart (mandelRegionWidth 1280 1) 0 = 1 ∧
    (∀ i, regionXEnd (mandelRegionWidth 1280 1) i + 1 =
      regionXStart (mandelRegionWidth 1280 1) (i + 1)) ∧
    1280 - 1 ≤ regionXEnd (mandelRegionWidth 1280 1) 1 ∧
    (∀ i j, i < j → regionXEnd (mandelRegionWidth 1280 1) i <
      regionXStart (mandelRegionWidth 1280 1) j) ∧
    (∀ c, 1 ≤ c → c ≤ 1280 - 1 →
      ∃ i, i ≤ 1 ∧ regionXStart (mandelRegionWidth 1280 1) i ≤ c ∧
        c ≤ regionXEnd (mandelRegionWidth 1280 1) i)) :=
  ⟨by norm_num, C1_regions_tile_amended 1280 1 (by norm_num)⟩

/-- C3 counterexample: for the region `[0, 16)` split by
`CalculateRegionLocally` across the code's 8 threads, the computed fragment
width is `ceil(16/8) = 2`, yet fragment 0 visits 3 columns (not 2), and
fragments 0 and 1 both visit column 2 — distinct sub-fragments do not write
disjoint column ranges. -/
theorem C3_counterexample :
    ceilDivN (16 - 0) 8 = 2 ∧
    (localFragmentCols 8 0 16 0).length = 3 ∧
    2 ∈ localFragmentCols 8 0 16 0 ∧
    2 ∈ localFragmentCols 8 0 16 1 := by decide

/-- C3 amended: fragment `i` of `CalculateRegionLocally(x_start, _, x_end, _)`
with `mt` threads visits exactly the columns `c` with
`x_start + i*fw ≤ c ≤ x_start + i*fw + fw` and `c < x_end`
(`fw = ceil((x_end - x_start)/mt)`): an inclusive upper bound, so an
unclipped fragment spans `fw + 1` columns. No fragment ever touches a column
`≥ x_end` (nothing is read or written beyond the region boundary), but two
distinct fragments can both visit a column: exactly when they are
consecutive, at the single shared boundary column `x_start + (i+1)*fw`. -/
theorem C3_fragments_amended (mt x_start x_end : ℕ) (hmt : 0 < mt) :
    (∀ i c, c ∈ localFragmentCols mt x_start x_end i ↔
      (x_start + i * ceilDivN (x_end - x_start) mt ≤ c ∧
       c ≤ x_start + i * ceilDivN (x_end - x_start) mt +
         ceilDivN (x_end - x_start) mt ∧
       c < x_end)) ∧
    (∀ i c, c ∈ localFragmentCols mt x_start x_end i → c < x_end) ∧
    (∀ i j c, i < j → c ∈ localFragmentCols mt x_start x_end i →
      c ∈ localFragmentCols mt x_start x_end j →
      j = i + 1 ∧ c = x_start + j * ceilDivN (x_end - x_start) mt) := by
  set fw := ceilDivN (x_end - x_start) mt with hfw
  have hchar : ∀ i c, c ∈ localFragmentCols mt x_start x_end i ↔
      (x_start + i * fw ≤ c ∧ c ≤ x_start + i * fw + fw ∧ c < x_end) := by
    intro i c
    rw [localFragmentCols]
    exact mem_fragmentVisitedCols
  refine ⟨hchar, fun i c hc => ((hchar i c).mp hc).2.2, ?_⟩
  intro i j c hij hci hcj
  rw [hchar] at hci hcj
  rcases Nat.eq_zero_or_pos fw with hfw0 | hfw0
  · exfalso
    have hxe : x_end - x_start = 0 := by
      rw [← @ceilDivN_eq_zero_iff (x_end - x_start) mt hmt, ← hfw]
      exact hfw0
    rw [hfw0] at hci
    simp only [Nat.mul_zero] at hci
    omega
  · have h1 : j * fw ≤ (i + 1) * fw := by
      rw [Nat.succ_mul]
      linarith [hcj.1, hci.2.1]
    have h2 : j ≤ i + 1 := Nat.le_of_mul_le_mul_right h1 hfw0
    have h3 : j = i + 1 := by omega
    subst h3
    refine ⟨rfl, ?_⟩
    have h4 := hcj.1
    have h5 := hci.2.1
    rw [Nat.succ_mul] at h4 ⊢
    linarith

/-- Witness for the amended C3 with the code's 8 threads on region
`[0, 16)`. -/
theorem C3_fragments_amended_witness :
    0 < 8 ∧
    ((∀ i c, c ∈ localFragmentCols 8 0 16 i ↔
      (0 + i * ceilDivN (16 - 0) 8 ≤ c ∧
       c ≤ 0 + i * ceilDivN (16 - 0) 8 + ceilDivN (16 - 0) 8 ∧
       c < 16)) ∧
    (∀ i c, c ∈ localFragmentCols 8 0 16 i → c < 16) ∧
    (∀ i j c, i < j → c ∈ localFragmentCols 8 0 16 i →
      c ∈ localFragmentCols 8 0 16 j →
      j = i + 1 ∧ c = 0 + j * ceilDivN (16 - 0) 8)) :=
  ⟨by norm_num, C3_fragments_amended 8 0 16 (by norm_num)⟩

/-- C4: `Update` can return only after every local fragment goroutine and
every slave goroutine of the frame has finished: in every reachable join
state of a frame in which `Update` has returned, all `MAX_THREADS` local
fragment tasks and all `nS` remote tasks have completed — the pixel buffer
is never handed to the display while some task is still writing. -/
theorem C4_frame_barrier (nS : ℕ) (s : FrameJoinState)
    (hr : FrameReachable MAX_THREADS nS s) :
    s.returned = true →
    Finset.range MAX_THREADS ⊆ s.localDone ∧
    Finset.range nS ⊆ s.remoteDone := by
  induction hr with
  | init => intro h; simp at h
  | step hr hstep ih =>
      intro hret
      cases hstep with
      | finishLocal i hi s =>
          rcases ih hret with ⟨h1, h2⟩
          exact ⟨h1.trans (Finset.subset_insert _ _), h2⟩
      | finishRemote j hj s =>
          rcases ih hret with ⟨h1, h2⟩
          exact ⟨h1, h2.trans (Finset.subset_insert _ _)⟩
      | ret s hT hS => exact ⟨hT, hS⟩

/-- Witness for C4: a concrete frame execution with no slave nodes in which
all 8 fragment tasks finish and then `Update` returns. -/
theorem C4_frame_barrier_witness :
    Finset.range MAX_THREADS ⊆
      (insert 0 (insert 1 (insert 2 (insert 3 (insert 4 (insert 5 (insert 6
        (insert 7 (∅ : Finset ℕ)))))))) : Finset ℕ) ∧
    Finset.range 0 ⊆ (∅ : Finset ℕ) := by
  have r0 : FrameReachable MAX_THREADS 0 ⟨∅, ∅, false⟩ := FrameReachable.init
  have r1 : FrameReachable MAX_THREADS 0 ⟨insert 7 (∅ : Finset ℕ), ∅, false⟩ :=
    r0.step (FrameStep.finishLocal 7 (by norm_num) _)
  have r2 : FrameReachable MAX_THREADS 0
      ⟨insert 6 (insert 7 (∅ : Finset ℕ)), ∅, false⟩ :=
    r1.step (FrameStep.finishLocal 6 (by norm_num) _)
  have r3 : FrameReachable MAX_THREADS 0
      ⟨insert 5 (insert 6 (insert 7 (∅ : Finset ℕ))), ∅, false⟩ :=
    r2.step (FrameStep.finishLocal 5 (by norm_num) _)
  have r4 : FrameReachable MAX_THREADS 0
      ⟨insert 4 (insert 5 (insert 6 (insert 7 (∅ : Finset ℕ)))), ∅, false⟩ :=
    r3.step (FrameStep.finishLocal 4 (by norm_num) _)
  have r5 : FrameReachable MAX_THREADS 0
      ⟨insert 3 (insert 4 (insert 5 (insert 6 (insert 7 (∅ : Finset ℕ))))),
        ∅, false⟩ :=
    r4.step (FrameStep.finishLocal 3 (by norm_num) _)
  have r6 : FrameReachable MAX_THREADS 0
      ⟨insert 2 (insert 3 (insert 4 (insert 5 (insert 6 (insert 7
        (∅ : Finset ℕ)))))), ∅, false⟩ :=
    r5.step (FrameStep.finishLocal 2 (by norm_num) _)
  have r7 : FrameReachable MAX_THREADS 0
      ⟨insert 1 (insert 2 (insert 3 (insert 4 (insert 5 (insert 6 (insert 7
        (∅ : Finset ℕ))))))), ∅, false⟩ :=
    r6.step (FrameStep.finishLocal 1 (by norm_num) _)
  have r8 : FrameReachable MAX_THREADS 0
      ⟨insert 0 (insert 1 (insert 2 (insert 3 (insert 4 (insert 5 (insert 6
        (insert 7 (∅ : Finset ℕ)))))))), ∅, false⟩ :=
    r7.step (FrameStep.finishLocal 0 (by norm_num) _)
  have r9 : FrameReachable MAX_THREADS 0
      ⟨insert 0 (insert 1 (insert 2 (insert 3 (insert 4 (insert 5 (insert 6
        (insert 7 (∅ : Finset ℕ)))))))), ∅, true⟩ :=
    r8.step (FrameStep.ret _ (by decide) (by decide))
  exact C4_frame_barrier 0 _ r9 rfl

theorem firstMinIdx_lt_length (l : List ℚ) (h : l ≠ []) :
    firstMinIdx l < l.length := by
  match l with
  | [x] => simp [firstMinIdx]
  | x :: y :: xs =>
      rw [firstMinIdx]
      have ih := firstMinIdx_lt_length (y :: xs) (by simp)
      split
      · simpa using Nat.succ_lt_succ ih
      · simp

theorem firstMaxIdx_lt_length (l : List ℚ) (h : l ≠ []) :
    firstMaxIdx l < l.length := by
  match l with
  | [x] => simp [firstMaxIdx]
  | x :: y :: xs =>
      rw [firstMaxIdx]
      have ih := firstMaxIdx_lt_length (y :: xs) (by simp)
      split
      · simpa using Nat.succ_lt_succ ih
      · simp

theorem getD_set_self (l : List ℤ) (i : ℕ) (a : ℤ) (h : i < l.length) :
    (l.set i a).getD i 0 = a := by
  rw [List.getD_eq_getElem _ _ (by simpa using h)]
  exact List.getElem_set_self ..

theorem getD_set_ne (l : List ℤ) (i j : ℕ) (a : ℤ) (hij : i ≠ j) :
    (l.set i a).getD j 0 = l.getD j 0 := by
  by_cases hj : j < l.length
  · rw [List.getD_eq_getElem _ _ (by simpa using hj),
      List.getD_eq_getElem _ _ hj]
    exact List.getElem_set_ne hij _
  · rw [List.getD_eq_default _ _ (by simpa using Nat.le_of_not_lt hj),
      List.getD_eq_default _ _ (Nat.le_of_not_lt hj)]

/-- C5 (spec-modelled; the source has no balancer): `Rebalance` preserves
the `WorkloadShare` invariant — the resulting vector still sums to exactly
100 with every entry in `[0, 100]` — and it moves exactly one percentage
point from the slowest node to the fastest node when `fastest ≠ slowest`,
`shares[fastest] < 100` and `shares[slowest] > 0`, leaving every other entry
unchanged, and leaves the whole vector unchanged otherwise. -/
theorem C5_rebalance_invariant (shares : List ℤ) (lat : List ℚ)
    (hlen : shares.length = lat.length)
    (hsum : shares.sum = 100)
    (hbound : ∀ x ∈ shares, 0 ≤ x ∧ x ≤ 100) :
    (Rebalance shares lat).sum = 100 ∧
    (∀ x ∈ Rebalance shares lat, 0 ≤ x ∧ x ≤ 100) ∧
    ((firstMinIdx lat ≠ firstMaxIdx lat ∧
      shares.getD (firstMinIdx lat) 0 < 100 ∧
      0 < shares.getD (firstMaxIdx lat) 0) →
      ((Rebalance shares lat).getD (firstMinIdx lat) 0 =
         shares.getD (firstMinIdx lat) 0 + 1 ∧
       (Rebalance shares lat).getD (firstMaxIdx lat) 0 =
         shares.getD (firstMaxIdx lat) 0 - 1 ∧
       (∀ k, k ≠ firstMinIdx lat → k ≠ firstMaxIdx lat →
         (Rebalance shares lat).getD k 0 = shares.getD k 0))) ∧
    (¬(firstMinIdx lat ≠ firstMaxIdx lat ∧
        shares.getD (firstMinIdx lat) 0 < 100 ∧
        0 < shares.getD (firstMaxIdx lat) 0) →
      Rebalance shares lat = shares) := by
  set f := firstMinIdx lat with hf
  set sl := firstMaxIdx lat with hsl
  by_cases hcond : f ≠ sl ∧ shares.getD f 0 < 100 ∧ 0 < shares.getD sl 0
  · have hlat : lat ≠ [] := by
      rintro rfl
      exact hcond.1 rfl
    have hfl : f < shares.length := by
      rw [hlen, hf]; exact firstMinIdx_lt_length lat hlat
    have hsll : sl < shares.length := by
      rw [hlen, hsl]; exact firstMaxIdx_lt_length lat hlat
    have hres : Rebalance shares lat =
        (shares.set f (shares.getD f 0 + 1)).set sl (shares.getD sl 0 - 1) := by
      rw [Rebalance, if_pos hcond]
    have hgf : shares.getD f 0 = shares[f] := List.getD_eq_getElem _ _ hfl
    have hgsl : shares.getD sl 0 = shares[sl] := List.getD_eq_getElem _ _ hsll
    have hsll2 : sl < (shares.set f (shares.getD f 0 + 1)).length := by
      simpa using hsll
    refine ⟨?_, ?_, ?_, ?_⟩
    · rw [hres, List.sum_set', dif_pos hsll2, List.sum_set', dif_pos hfl]
      have hsetsl : (shares.set f (shares.getD f 0 + 1))[sl] =
          shares[sl] := List.getElem_set_ne hcond.1 _
      rw [hsetsl, ← hgf, ← hgsl]
      omega
    · intro x hx
      rw [hres] at hx
      rcases List.mem_or_eq_of_mem_set hx with hx1 | hx1
      · rcases List.mem_or_eq_of_mem_set hx1 with hx2 | hx2
        · exact hbound x hx2
        · subst hx2
          have hm := hbound shares[f] (List.getElem_mem hfl)
          omega
      · subst hx1
        have hm := hbound shares[sl] (List.getElem_mem hsll)
        omega
    · intro _
      refine ⟨?_, ?_, ?_⟩
      · rw [hres, getD_set_ne _ _ _ _ (Ne.symm hcond.1), getD_set_self _ _ _ hfl]
      · rw [hres, getD_set_self _ _ _ (by simpa using hsll)]
      · intro k hk1 hk2
        rw [hres, getD_set_ne _ _ _ _ (Ne.symm hk2), getD_set_ne _ _ _ _ (Ne.symm hk1)]
    · intro hneg
      exact absurd hcond hneg
  · have hres : Rebalance shares lat = shares := by
      rw [Rebalance, if_neg hcond]
    rw [hres]
    exact ⟨hsum, hbound, fun hc => absurd hc hcond, fun _ => rfl⟩

/-- Witness for C5 on the spec's end-to-end example: shares `[50, 50]`,
latencies `[10 ms, 30 ms]` — the first node is fastest, so the shares
become `[51, 49]`. -/
theorem C5_rebalance_invariant_witness :
    ([50, 50] : List ℤ).length = ([10, 30] : List ℚ).length ∧
    ([50, 50] : List ℤ).sum = 100 ∧
    ((Rebalance [50, 50] [10, 30]).sum = 100 ∧
     (∀ x ∈ Rebalance [50, 50] [10, 30], 0 ≤ x ∧ x ≤ 100) ∧
     ((firstMinIdx [10, 30] ≠ firstMaxIdx [10, 30] ∧
       ([50, 50] : List ℤ).getD (firstMinIdx [10, 30]) 0 < 100 ∧
       0 < ([50, 50] : List ℤ).getD (firstMaxIdx [10, 30]) 0) →
       ((Rebalance [50, 50] [10, 30]).getD (firstMinIdx [10, 30]) 0 =
          ([50, 50] : List ℤ).getD (firstMinIdx [10, 30]) 0 + 1 ∧
        (Rebalance [50, 50] [10, 30]).getD (firstMaxIdx [10, 30]) 0 =
          ([50, 50] : List ℤ).getD (firstMaxIdx [10, 30]) 0 - 1 ∧
        (∀ k, k ≠ firstMinIdx [10, 30] → k ≠ firstMaxIdx [10, 30] →
          (Rebalance [50, 50] [10, 30]).getD k 0 =
            ([50, 50] : List ℤ).getD k 0))) ∧
     (¬(firstMinIdx [10, 30] ≠ firstMaxIdx [10, 30] ∧
         ([50, 50] : List ℤ).getD (firstMinIdx [10, 30]) 0 < 100 ∧
         0 < ([50, 50] : List ℤ).getD (firstMaxIdx [10, 30]) 0) →
       Rebalance [50, 50] [10, 30] = [50, 50])) :=
  ⟨rfl, by decide,
   C5_rebalance_invariant [50, 50] [10, 30] rfl (by decide) (by decide)⟩

theorem calculateRegion_buffer (s : SlaveNodeState)
    (req : CalculateRegionRequest) :
    (CalculateRegion s req).1.RGBBuffer =
      some (applyByteWrites
        (match s.RGBBuffer with
         | none => List.replicate (req.RegionWidth * req.RegionHeight * 3) 0
         | some b => b)
        (CalculateRegionLocallyByteWrites req.MagnificationFactor
          req.MaxIterations req.PanX req.PanY MAX_THREADS
          (req.RegionIndex * req.RegionWidth) 0
          (req.RegionIndex * req.RegionWidth + req.RegionWidth)
          req.RegionHeight)) := rfl

/-- C6 amended: the worker's reusable buffer is allocated only on the first
request (when it is still `nil`), sized by that first request; later requests
never reallocate it, even when the requested region size differs — the
handler only overwrites bytes in place. Hence after a request served from an
empty worker the buffer length is `region.width*region.height*3` of that
request, and after a request served from a worker whose buffer already
exists the length is unchanged from before. -/
theorem C6_buffer_amended (s : SlaveNodeState) (req : CalculateRegionRequest) :
    (s.RGBBuffer = none →
      (((CalculateRegion s req).1.RGBBuffer).getD []).length =
        req.RegionWidth * req.RegionHeight * 3) ∧
    (∀ b, s.RGBBuffer = some b →
      (((CalculateRegion s req).1.RGBBuffer).getD []).length = b.length) := by
  constructor
  · intro h
    rw [calculateRegion_buffer, h, Option.getD_some, applyByteWrites_length,
      List.length_replicate]
  · intro b hb
    rw [calculateRegion_buffer, hb, Option.getD_some, applyByteWrites_length]

/-- Witness for the amended C6: a fresh worker serving a `1×1` region ends
up with a 3-byte buffer. -/
theorem C6_buffer_amended_witness :
    slaveInit.RGBBuffer = none ∧
    (((CalculateRegion slaveInit ⟨1, 0, 0, 0, 1, 1, 0⟩).1.RGBBuffer).getD
      []).length = 1 * 1 * 3 :=
  ⟨rfl, (C6_buffer_amended slaveInit ⟨1, 0, 0, 0, 1, 1, 0⟩).1 rfl⟩

theorem calculateRegion_buffer_none (s : SlaveNodeState)
    (req : CalculateRegionRequest) (h : s.RGBBuffer = none) :
    (CalculateRegion s req).1.RGBBuffer =
      some (applyByteWrites
        (List.replicate (req.RegionWidth * req.RegionHeight * 3) 0)
        (CalculateRegionLocallyByteWrites req.MagnificationFactor
          req.MaxIterations req.PanX req.PanY MAX_THREADS
          (req.RegionIndex * req.RegionWidth) 0
          (req.RegionIndex * req.RegionWidth + req.RegionWidth)
          req.RegionHeight)) := by
  rw [calculateRegion_buffer, h]

theorem calculateRegion_buffer_some (s : SlaveNodeState)
    (req : CalculateRegionRequest) (b : List ℕ) (h : s.RGBBuffer = some b) :
    (CalculateRegion s req).1.RGBBuffer =
      some (applyByteWrites b
        (CalculateRegionLocallyByteWrites req.MagnificationFactor
          req.MaxIterations req.PanX req.PanY MAX_THREADS
          (req.RegionIndex * req.RegionWidth) 0
          (req.RegionIndex * req.RegionWidth + req.RegionWidth)
          req.RegionHeight)) := by
  rw [calculateRegion_buffer, h]

/-- C6 counterexample: serve a `4×5` region first (allocating 60 bytes),
then a `2×3` region: after the second request the buffer still has 60
bytes, not `region.width*region.height*3 = 18` — the worker does not
reallocate when the region size changes. -/
theorem C6_counterexample :
    ¬ ((((CalculateRegion (CalculateRegion slaveInit
            ⟨1, 0, 0, 0, 4, 5, 0⟩).1 ⟨1, 0, 0, 0, 2, 3, 0⟩).1.RGBBuffer).getD
          []).length = 2 * 3 * 3) := by
  intro hlen
  have h1 := calculateRegion_buffer_none slaveInit ⟨1, 0, 0, 0, 4, 5, 0⟩ rfl
  have h2 := calculateRegion_buffer_some
    (CalculateRegion slaveInit ⟨1, 0, 0, 0, 4, 5, 0⟩).1 ⟨1, 0, 0, 0, 2, 3, 0⟩
    _ h1
  rw [h2, Option.getD_some, applyByteWrites_length, applyByteWrites_length,
    List.length_replicate] at hlen
  norm_num at hlen

/-- C8: the pixel output of a fragment evaluation does not depend on the
thread index (or any other state): two fragment calls differing only in
`thread_index` produce identical write lists, and every written color is the
pure function `pixelAt` of the pixel's own coordinates and the render
parameters — so evaluating the same region twice with identical parameters
is byte-identical. -/
theorem C8_fragment_determinism (t1 t2 : ℕ) (mag maxIter panX panY : ℚ)
    (x_start y_start x_end_frag y_end offset x_region_end : ℕ) :
    (CalculateFragmentInThread t1 mag maxIter panX panY x_start y_start
        x_end_frag y_end offset x_region_end).1 =
      (CalculateFragmentInThread t2 mag maxIter panX panY x_start y_start
        x_end_frag y_end offset x_region_end).1 ∧
    (∀ w ∈ (CalculateFragmentInThread t1 mag maxIter panX panY x_start
        y_start x_end_frag y_end offset x_region_end).1,
      w.2 = pixelAt mag maxIter panX panY w.1.1 w.1.2) := by
  refine ⟨rfl, ?_⟩
  intro w hw
  simp only [CalculateFragmentInThread, fragmentPixelWrites,
    List.mem_flatMap, List.mem_map] at hw
  obtain ⟨x, hx, yi, hyi, rfl⟩ := hw
  rfl

/-- Witness for C8: threads 0 and 1 on a one-column, one-row fragment with
`MaxIterations = 0` (every pixel black). -/
theorem C8_fragment_determinism_witness :
    (CalculateFragmentInThread 0 1 0 0 0 0 0 0 1 0 5).1 =
      (CalculateFragmentInThread 1 1 0 0 0 0 0 0 1 0 5).1 ∧
    ((0, 0), pixelAt 1 0 0 0 0 0).2 = pixelAt 1 0 0 0 0 0 :=
  ⟨(C8_fragment_determinism 0 1 1 0 0 0 0 0 0 1 0 5).1,
   (C8_fragment_determinism 0 1 1 0 0 0 0 0 0 1 0 5).2
     ((0, 0), pixelAt 1 0 0 0 0 0) (by decide)⟩

/-- C9: in slave mode, every byte index written into the worker's
`RGBBuffer` while serving a region of size `W×H` — across all fragment
threads, all visited columns and all rows, and all three RGB channels — is
strictly below `W*H*3`, the allocated buffer length for that region size:
no write is out of bounds. -/
theorem C9_buffer_writes_in_bounds (mag maxIter panX panY : ℚ)
    (mt W H ri : ℕ) (iv : ℕ × ℕ)
    (hm : iv ∈ CalculateRegionLocallyByteWrites mag maxIter panX panY mt
      (ri * W) 0 (ri * W + W) H) :
    iv.1 < W * H * 3 := by
  simp only [CalculateRegionLocallyByteWrites, fragmentByteWrites,
    Nat.sub_zero, List.mem_flatMap, List.mem_range, List.mem_cons,
    List.mem_singleton] at hm
  obtain ⟨i, hi, ci, hci, yi, hyi, hiv⟩ := hm
  set fw := ceilDivN (ri * W + W - ri * W) mt with hfw
  rw [fragmentVisitedCols_eq, List.length_range', lt_min_iff] at hci
  have hkey : i * fw + ci + 1 ≤ W := by
    have h2 := hci.2
    set a1 := ri * W
    set a2 := i * fw
    omega
  have e2 : (i * fw + ci + 1) * H ≤ W * H := Nat.mul_le_mul_right H hkey
  have e1 : (i * fw + ci + 1) * H = i * fw * H + ci * H + H := by ring
  have e3 := Nat.add_lt_add_left hyi (i * fw * H + ci * H)
  have hub : i * fw * H + ci * H + yi < W * H := lt_of_lt_of_le e3 (e1 ▸ e2)
  set b1 := i * fw * H
  set b2 := ci * H
  set b3 := W * H
  rcases hiv with rfl | rfl | rfl | h0
  · dsimp only
    omega
  · dsimp only
    omega
  · dsimp only
    omega
  · simp at h0

/-- Witness for C9: region index 0 of width 2 and height 1, `MaxIterations
= 0`; the write at byte 0 is below `2*1*3 = 6`. -/
theorem C9_buffer_writes_in_bounds_witness :
    (0, 0) ∈ CalculateRegionLocallyByteWrites 1 0 0 0 8 (0 * 2) 0
      (0 * 2 + 2) 1 ∧
    ((0, 0) : ℕ × ℕ).1 < 2 * 1 * 3 :=
  ⟨by decide, C9_buffer_writes_in_bounds 1 0 0 0 8 2 1 0 (0, 0) (by decide)⟩
